import Mathlib

/-!
Verification of the Excel formula dependency resolver
(`src/backend/app/services/formula_analyzer.py`) against its
natural-language specification.

The Python source is shallowly embedded below.  Python `float` cell values
are modelled as `Int`: the resolver never performs arithmetic on values —
it only copies the cached numeric value of a cell into the corresponding
tree node — so the carrier type is irrelevant to every property studied
here.  Python `set`s of cell-id strings are modelled as `List String` with
membership tests and duplicate-free insertion.  The bounded `while` loop of
`_number_to_column_letter` and the bounded recursion of
`_analyze_cell_recursive` (bounded by `max_depth`) are modelled with an
explicit fuel parameter so that every definition is a computable structural
recursion; fuel is always instantiated large enough to be unreachable
(lemmas below make the sufficiency explicit where a proof needs it).
-/

set_option maxRecDepth 100000
set_option maxHeartbeats 4000000

/-! ## Column letter conversions (`_column_letter_to_number`, `_number_to_column_letter`) -/

/-- Value of a column-letter string given least-significant-first
(reversed) character list.  Horner form of the Python expression
`sum((ord(char.upper()) - 64) * 26**i for i, char in enumerate(reversed(column_letter)))`:
the head is the `26**0` digit. -/
def colval : List Char → Nat
  | [] => 0
  | c :: cs => (c.toUpper.toNat - 64) + 26 * colval cs

/-- Embeds `_column_letter_to_number`. -/
def column_letter_to_number (s : String) : Nat :=
  colval s.data.reverse

/-- Loop body of `_number_to_column_letter`: produces the letters
least-significant first, exactly as Python appends them before the final
`reversed`.  The first argument is fuel; the loop runs while
`column_number > 0` and each iteration replaces `n+1` by `n / 26 ≤ n`,
so fuel equal to the starting number is always sufficient. -/
def to_col_chars : Nat → Nat → List Char
  | 0, _ => []
  | _, 0 => []
  | fuel + 1, n + 1 => Char.ofNat (65 + n % 26) :: to_col_chars fuel (n / 26)

/-- Embeds `_number_to_column_letter`. -/
def number_to_column_letter (n : Nat) : String :=
  ⟨(to_col_chars n n).reverse⟩

/-- The uppercase letters A-Z, the domain of the round-trip claim. -/
def uppercase_letters : List Char :=
  ['A', 'B', 'C', 'D', 'E', 'F', 'G', 'H', 'I', 'J', 'K', 'L', 'M',
   'N', 'O', 'P', 'Q', 'R', 'S', 'T', 'U', 'V', 'W', 'X', 'Y', 'Z']


/-! ## String helpers mirroring the Python primitives used by the analyzer -/

/-- Python `str.strip()` (whitespace removed from both ends). -/
def py_strip (s : String) : String :=
  ⟨((s.data.dropWhile Char.isWhitespace).reverse.dropWhile Char.isWhitespace).reverse⟩

/-- Python `str.upper()`. -/
def py_upper (s : String) : String :=
  ⟨s.data.map Char.toUpper⟩

/-- Python `str.lower()`. -/
def py_lower (s : String) : String :=
  ⟨s.data.map Char.toLower⟩

/-- Python `str.strip("'\"")` used to clean sheet names. -/
def is_quote_char (c : Char) : Bool :=
  c = '\'' || c = '"'

def strip_quotes (s : String) : String :=
  ⟨((s.data.dropWhile is_quote_char).reverse.dropWhile is_quote_char).reverse⟩

/-- Python `int()` on a non-empty digit string (the regex guarantees digits). -/
def digits_to_nat (ds : List Char) : Nat :=
  ds.foldl (fun a c => a * 10 + (c.toNat - 48)) 0

/-! ## The cell-reference parser (`cell_pattern` + `parse_formula`)

The compiled pattern is
`(?:(['\w\s]+)!)?(\$?[A-Z]+)(\$?\d+)(?::(\$?[A-Z]+)(\$?\d+))?` applied with
`findall`.  The scanner below is a hand compilation of this fixed pattern:

* the optional sheet group is a maximal run of characters from the class
  `['\w\s]` followed by `!` (the run cannot contain `!`, so the greedy
  match has exactly one candidate length; if the prefixed alternative
  fails, the engine retries the same position without the prefix);
* `\$?[A-Z]+` and `\$?\d+` need no backtracking because `$`, `A-Z` and
  digits are disjoint character classes;
* the optional `:(\$?[A-Z]+)(\$?\d+)` group is dropped wholesale (the `:`
  unconsumed) when its inside fails;
* `findall` restarts right after each (always non-empty) match and
  otherwise advances one character. -/

structure RawMatch where
  sheet : Option (List Char) := none
  abs_col : Bool := false
  col : List Char := []
  abs_row : Bool := false
  row : List Char := []
  range_col : Option (List Char) := none
  range_row : Option (List Char) := none
  deriving Repr, DecidableEq

/-- The character class `['\w\s]` of the sheet-name group. -/
def is_sheet_char (c : Char) : Bool :=
  c = '\'' || c.isAlphanum || c = '_' || c.isWhitespace

def is_upper_az (c : Char) : Bool :=
  'A' ≤ c && c ≤ 'Z'

/-- Matches `\$?[A-Z]+`, returning the absolute flag, the letters and the
remaining input. -/
def match_col (l : List Char) : Option (Bool × List Char × List Char) :=
  let p := match l with
    | '$' :: t => (true, t)
    | _ => (false, l)
  let letters := p.2.takeWhile is_upper_az
  if letters.isEmpty then none
  else some (p.1, letters, p.2.drop letters.length)

/-- Matches `\$?\d+`, returning the absolute flag, the digits and the
remaining input. -/
def match_row (l : List Char) : Option (Bool × List Char × List Char) :=
  let p := match l with
    | '$' :: t => (true, t)
    | _ => (false, l)
  let digits := p.2.takeWhile Char.isDigit
  if digits.isEmpty then none
  else some (p.1, digits, p.2.drop digits.length)

/-- Matches the pattern without its sheet prefix. -/
def match_body (l : List Char) : Option (RawMatch × List Char) :=
  match match_col l with
  | none => none
  | some (ac, cl, l1) =>
    match match_row l1 with
    | none => none
    | some (ar, rw, l2) =>
      let base : RawMatch := { abs_col := ac, col := cl, abs_row := ar, row := rw }
      match l2 with
      | ':' :: l3 =>
        match match_col l3 with
        | some (_, rcl, l4) =>
          match match_row l4 with
          | some (_, rrw, l5) =>
            some ({ base with range_col := some rcl, range_row := some rrw }, l5)
          | none => some (base, l2)
        | none => some (base, l2)
      | _ => some (base, l2)

/-- Attempts a match anchored at the head of `l`. -/
def match_at (l : List Char) : Option (RawMatch × List Char) :=
  let run := l.takeWhile is_sheet_char
  let after := l.drop run.length
  let with_sheet :=
    if run.isEmpty then none
    else match after with
      | '!' :: body =>
        match match_body body with
        | some (m, rest) => some ({ m with sheet := some run }, rest)
        | none => none
      | _ => none
  match with_sheet with
  | some r => some r
  | none => match_body l

/-- `findall` scan; fuel bounds the number of scan steps (each step
consumes at least one character, so `l.length + 1` is always enough). -/
def find_all_aux : Nat → List Char → List RawMatch
  | 0, _ => []
  | _ + 1, [] => []
  | fuel + 1, c :: cs =>
    match match_at (c :: cs) with
    | some (m, rest) => m :: find_all_aux fuel rest
    | none => find_all_aux fuel cs

def cell_pattern_findall (l : List Char) : List RawMatch :=
  find_all_aux (l.length + 1) l

/-- Embeds the `CellReference` dataclass. -/
structure CellReference where
  sheet_name : Option String := none
  column : String := ""
  row : Nat := 0
  is_absolute_column : Bool := false
  is_absolute_row : Bool := false
  is_range : Bool := false
  range_end_column : Option String := none
  range_end_row : Option Nat := none
  deriving Repr, DecidableEq

/-- Embeds `parse_formula`: returns `[]` unless the text starts with `=`,
then converts every scanner match into a `CellReference` (quoted sheet
names are stripped; a sheet name that strips to the empty string becomes
`None`; `$` markers set the absolute flags and are removed from the
letters/digits). -/
def parse_formula (formula : String) : List CellReference :=
  match formula.data with
  | '=' :: rest =>
    (cell_pattern_findall rest).map (fun m =>
      let sheet0 : Option String := m.sheet.map (fun l => strip_quotes ⟨l⟩)
      let sheet1 : Option String :=
        match sheet0 with
        | some s => if s = "" then none else some s
        | none => none
      { sheet_name := sheet1
        column := ⟨m.col⟩
        row := digits_to_nat m.row
        is_absolute_column := m.abs_col
        is_absolute_row := m.abs_row
        is_range := m.range_col.isSome && m.range_row.isSome
        range_end_column := m.range_col.map (⟨·⟩)
        range_end_row := m.range_row.map digits_to_nat })
  | _ => []

/-! ## External-reference detection (`_has_external_references`)

The source checks `re.search(p, formula, re.IGNORECASE)` for the two
patterns `\[[^]]+\.xlsx?\]` and `'\[[^']+\.[^']+\.xlsx?\]`. -/

/-- True when `inner` (the bracket content, which contains no `]`) matches
`[^]]+\.xlsx?` in full: a non-empty stem followed by `.xls` or `.xlsx`,
case-insensitively. -/
def ends_with_xls (inner : List Char) : Bool :=
  let low := inner.map Char.toLower
  (['.', 'x', 'l', 's'].isSuffixOf low && decide (5 ≤ low.length)) ||
    (['.', 'x', 'l', 's', 'x'].isSuffixOf low && decide (6 ≤ low.length))

/-- Search for `\[[^]]+\.xlsx?\]`: at each `[`, the `[^]]+` run extends to
the first `]` (it cannot cross one), so that bracket pair matches iff the
content ends with the workbook-file suffix. -/
def ext_scan1 : List Char → Bool
  | [] => false
  | c :: rest =>
    (if c = '[' then
      let inner := rest.takeWhile (fun d => d ≠ ']')
      !(rest.drop inner.length).isEmpty && ends_with_xls inner
     else false) || ext_scan1 rest

/-- True when `pre` matches `[^']+\.[^']+\.xlsx?` in full (the span between
`'[` and a candidate `]` of the second pattern): no quote anywhere, a
`.xls`/`.xlsx` suffix, and an interior `.` splitting the remaining stem
into two non-empty parts. -/
def has_interior_dot (q : List Char) : Bool :=
  match q with
  | [] => false
  | _ :: t => t.dropLast.contains '.'

def ext2_pre_ok (pre : List Char) : Bool :=
  !pre.contains '\'' &&
    (let low := pre.map Char.toLower
     if ['.', 'x', 'l', 's', 'x'].isSuffixOf low then
       has_interior_dot (pre.take (pre.length - 5))
     else if ['.', 'x', 'l', 's'].isSuffixOf low then
       has_interior_dot (pre.take (pre.length - 4))
     else false)

/-- Tries every `]` as the closing bracket of the second pattern,
accumulating the span seen so far (reversed). -/
def ext2_scan_close : List Char → List Char → Bool
  | _, [] => false
  | pre, c :: rest =>
    (c = ']' && ext2_pre_ok pre.reverse) || ext2_scan_close (c :: pre) rest

/-- Search for `'\[[^']+\.[^']+\.xlsx?\]`. -/
def ext_scan2 : List Char → Bool
  | [] => false
  | c :: rest =>
    (if c = '\'' then
      match rest with
      | '[' :: after => ext2_scan_close [] after
      | _ => false
     else false) || ext_scan2 rest

/-- Embeds `_has_external_references`. -/
def has_external_references (formula : String) : Bool :=
  ext_scan1 formula.data || ext_scan2 formula.data

/-! ## Complexity classifier (`analyze_formula_complexity`) -/

/-- Python `formula.startswith('=')`. -/
def starts_with_eq (s : String) : Bool :=
  match s.data with
  | '=' :: _ => true
  | _ => false

/-- The `supported_functions` set.  Only the number of members whose name
followed by `(` occurs in the upper-cased formula matters, so the set's
iteration order is irrelevant. -/
def supported_functions : List String :=
  ["SUM", "AVERAGE", "COUNT", "MAX", "MIN", "SUMIF", "SUMIFS",
   "IF", "IFERROR", "VLOOKUP", "HLOOKUP", "INDEX", "MATCH"]

/-- Python `f"{func}(" in formula.upper()`. -/
def contains_func (formula fn : String) : Bool :=
  decide ((fn ++ "(").data <:+: (py_upper formula).data)

/-- Python `sum(1 for func in self.supported_functions if f"{func}(" in formula.upper())`. -/
def num_functions_of (formula : String) : Nat :=
  (supported_functions.filter (fun fn => contains_func formula fn)).length

structure ComplexityResult where
  complexity : String
  can_drill_down : Bool
  has_external_refs : Bool
  deriving Repr, DecidableEq

/-- Embeds `analyze_formula_complexity`. -/
def analyze_formula_complexity (formula : String) : ComplexityResult :=
  if formula = "" ∨ starts_with_eq formula = false then
    { complexity := "simple", can_drill_down := false, has_external_refs := false }
  else
    let has_ext := has_external_references formula
    let num_refs := (parse_formula formula).length
    let nfun := num_functions_of formula
    let complexity :=
      if 5 < num_refs ∨ 2 < nfun then "complex"
      else if 1 < num_refs ∨ 0 < nfun then "moderate"
      else "simple"
    { complexity := complexity
      can_drill_down := !has_ext && decide (0 < num_refs)
      has_external_refs := has_ext }

/-! ## Workbook model and the dependency resolver -/

/-- One workbook cell, merging the two openpyxl views used by the source:
`formula` is the stored text when `cell.data_type == 'f'` (the
`data_only=False` load) and `num_value` is the cached value when that
value is numeric (the `data_only=True` load; any non-`int`/`float`
cached content fails the `isinstance` check and counts as absent). -/
structure Cell where
  num_value : Option Int := none
  formula : Option String := none
  deriving Repr, DecidableEq

/-- A loaded workbook: the sheet-name list and the cell lookup used via
`wb[sheet][address]`.  Lookup is total because openpyxl returns an empty
cell for any valid address of an existing sheet; missing sheets are
guarded by `sheetnames` checks exactly where the source guards them. -/
structure Workbook where
  sheetnames : List String
  cell : String → String → Cell

/-- Embeds the `FormulaComponent` dataclass. -/
structure FormulaComponent where
  name : String
  cell_reference : String
  value : Int
  formula : Option String := none
  is_leaf_node : Bool := false
  dependencies : List FormulaComponent
  variance_contribution : Int := 0

/-- Embeds `simple_cell_pattern.match` (`([A-Za-z]+)(\d+)` anchored at the
start, trailing characters ignored) together with the group handling at
the call sites: the column is upper-cased and the row parsed as an
integer, which also drops leading zeros from the lookup address. -/
def parse_simple_cell (s : String) : Option (String × Nat) :=
  let letters := s.data.takeWhile Char.isAlpha
  let rest := s.data.drop letters.length
  let digits := rest.takeWhile Char.isDigit
  if letters.isEmpty ∨ digits.isEmpty then none
  else some (⟨letters.map Char.toUpper⟩, digits_to_nat digits)

/-- The "basic cell info without recursing" block that the source
duplicates at its two depth-limit sites (the non-range reference loop and
the range expansion).  Returns `none` exactly when the sheet lookup or the
address match fails — the surrounding `try`/`except` then skips the node. -/
def shallow_component (wb : Workbook) (target_sheet target_address : String) :
    Option FormulaComponent :=
  if target_sheet ∈ wb.sheetnames then
    match parse_simple_cell target_address with
    | some (col, row) =>
      let c := wb.cell target_sheet (col ++ toString row)
      some { name := target_sheet ++ "!" ++ target_address
             cell_reference := target_sheet ++ "!" ++ target_address
             value := c.num_value.getD 0
             formula := c.formula
             is_leaf_node := c.formula.isNone
             dependencies := [] }
    | none => none
  else none

/-- Python `set.add` on the visited set (duplicate-free insertion). -/
def add_visited (v : List String) (cid : String) : List String :=
  if cid ∈ v then v else v ++ [cid]

/-- The normalisation `cell_address = (cell_address or "A1").strip()`
applied by `_analyze_cell_recursive` before anything else. -/
def norm_address (addr : String) : String :=
  py_strip (if addr = "" then "A1" else addr)

/-- The unique cell identifier
`f"{sheet_name.strip()}!" if sheet_name else "" + cell_address`
built by `_analyze_cell_recursive`. -/
def cell_id_of (sheet_name addr : String) : String :=
  (if sheet_name = "" then "" else py_strip sheet_name ++ "!") ++ norm_address addr

/-- The signature of `_analyze_cell_recursive` once the workbook pair is
fixed: sheet, address, max depth, current depth, visited set, visiting
set; returns the optional component and the updated visited set (the
visited set is mutated in place in Python, so it is threaded through
sequentially here; the visiting set is add/discard-balanced around each
call and is therefore passed downward functionally). -/
abbrev RecFn :=
  Workbook → String → String → Nat → Nat → List String → List String →
    Option FormulaComponent × List String

/-- Processing of one contained cell of a range (the inner loop body of
`_expand_range_reference`): at the depth limit a shallow node is
materialised, otherwise the analyzer is called recursively.  Note that
the source's recursive call passes `visited_cells` but omits `visiting`,
whose default `None` re-initialises it to the empty set — faithfully
embedded by the `[]` argument. -/
def range_cell_process (recurse : RecFn) (wb : Workbook)
    (target_sheet target_address : String) (max_depth current_depth : Nat)
    (acc : List FormulaComponent × List String) :
    List FormulaComponent × List String :=
  if max_depth ≤ current_depth then
    match shallow_component wb target_sheet target_address with
    | some comp => (acc.1 ++ [comp], acc.2)
    | none => acc
  else
    match recurse wb target_sheet target_address max_depth
        current_depth acc.2 [] with
    | (some comp, v2) => (acc.1 ++ [comp], v2)
    | (none, v2) => (acc.1, v2)

/-- Embeds `_expand_range_reference`, parameterised by the recursive
analyzer so that the mutual recursion is tied by fuel below.  The guard
mirrors `if not ref.is_range or not ref.range_end_column or
ref.range_end_row is None`; the two `range(...)` loops run the rows
outermost and the columns innermost. -/
def expand_range_reference_with (recurse : RecFn) (wb : Workbook)
    (ref : CellReference) (max_depth current_depth : Nat)
    (visited_cells : List String) (current_sheet : String) :
    List FormulaComponent × List String :=
  match ref.range_end_column, ref.range_end_row with
  | some recol, some end_row =>
    if ref.is_range = false ∨ recol = "" then ([], visited_cells)
    else
    let start_col := column_letter_to_number ref.column
    let end_col := column_letter_to_number recol
    (List.range' ref.row (end_row + 1 - ref.row)).foldl
      (fun acc row_num =>
        (List.range' start_col (end_col + 1 - start_col)).foldl
          (fun acc2 col_num =>
            range_cell_process recurse wb (ref.sheet_name.getD current_sheet)
              (number_to_column_letter col_num ++ toString row_num)
              max_depth current_depth acc2)
          acc)
      ([], visited_cells)
  | _, _ => ([], visited_cells)

/-- The body of the `for ref in references` loop of
`_analyze_cell_recursive`: a range reference is expanded (one level
deeper, and its components all appended); a non-range reference either
materialises a shallow node once the next level would reach the depth
limit, or recurses one level deeper with the current cell pushed onto the
visiting path. -/
def ref_step (recurse : RecFn) (wb : Workbook) (sheet_name : String)
    (max_depth current_depth : Nat) (visiting_next : List String)
    (acc : List FormulaComponent × List String) (ref : CellReference) :
    List FormulaComponent × List String :=
  if ref.is_range then
    let p := expand_range_reference_with recurse wb ref max_depth
      (current_depth + 1) acc.2 sheet_name
    (acc.1 ++ p.1, p.2)
  else
    let target_sheet := ref.sheet_name.getD sheet_name
    let target_address := ref.column ++ toString ref.row
    if max_depth ≤ current_depth + 1 then
      match shallow_component wb target_sheet target_address with
      | some comp => (acc.1 ++ [comp], acc.2)
      | none => acc
    else
      match recurse wb target_sheet target_address max_depth
          (current_depth + 1) acc.2 visiting_next with
      | (some dep, v2) => (acc.1 ++ [dep], v2)
      | (none, v2) => (acc.1, v2)

/-- The body of `_analyze_cell_recursive`, parameterised by the function
used for recursive calls.  Transcribes the source line by line: the two
set guards, the depth guard, the missing-sheet and unparseable-address
`None` returns, component construction, the external-reference early
leaf, and the reference loop (ranges expand via
`expand_range_reference_with` at `current_depth + 1`; non-range
references either materialise a shallow node at the depth limit or
recurse at `current_depth + 1` with `cell_id` pushed onto the visiting
path).  The `finally` block is reflected by adding `cell_id` to the
visited set on every path on which the component was created. -/
def analyze_core (recurse : RecFn) (wb : Workbook)
    (sheet_name cell_address0 : String) (max_depth current_depth : Nat)
    (visited_cells visiting : List String) :
    Option FormulaComponent × List String :=
  let cell_address := norm_address cell_address0
  let cell_id := cell_id_of sheet_name cell_address0
  if cell_id ∈ visiting then (none, visited_cells)
  else if cell_id ∈ visited_cells then (none, visited_cells)
  else if max_depth ≤ current_depth then (none, visited_cells)
  else if sheet_name ∉ wb.sheetnames then (none, visited_cells)
  else
    match parse_simple_cell cell_address with
    | none => (none, visited_cells)
    | some (col, row) =>
      let c := wb.cell sheet_name (col ++ toString row)
      let base : FormulaComponent :=
        { name := sheet_name ++ "!" ++ cell_address
          cell_reference := sheet_name ++ "!" ++ cell_address
          value := c.num_value.getD 0
          formula := c.formula
          is_leaf_node := c.formula.isNone
          dependencies := [] }
      match c.formula with
      | none => (some base, add_visited visited_cells cell_id)
      | some f =>
        if f = "" then (some base, add_visited visited_cells cell_id)
        else if has_external_references f then
          (some { base with is_leaf_node := true }, add_visited visited_cells cell_id)
        else
          let st := (parse_formula f).foldl
            (ref_step recurse wb sheet_name max_depth current_depth
              (cell_id :: visiting))
            ([], visited_cells)
          (some { base with dependencies := st.1 }, add_visited st.2 cell_id)

/-- Embeds `_analyze_cell_recursive`.  Fuel bounds the recursion depth;
since every recursive call increases `current_depth` by one and the depth
guard stops at `max_depth`, fuel `max_depth + 1` is unreachable when the
top-level call starts at `current_depth = 0`. -/
def analyze_cell_recursive : Nat → RecFn
  | 0 => fun _ _ _ _ _ visited _ => (none, visited)
  | fuel + 1 => analyze_core (analyze_cell_recursive fuel)

/-- Embeds `_expand_range_reference` (fuel applied to the analyzer). -/
def expand_range_reference (fuel : Nat) :
    Workbook → CellReference → Nat → Nat → List String → String →
      List FormulaComponent × List String :=
  expand_range_reference_with (analyze_cell_recursive fuel)

/-- Embeds `build_dependency_tree`.  Loading the workbook pair is
modelled by the `Except` argument: `Except.error` stands for
`openpyxl.load_workbook` raising (unreadable or corrupt file), and the
source's `except Exception` handler turns exactly that into `None`.
Sheet resolution is case-insensitive and whitespace-trimmed, and the
recursive analysis starts with fresh visited/visiting sets at depth 0. -/
def build_dependency_tree (load : Except String Workbook)
    (sheet_name cell_address : String) (max_depth : Nat) :
    Option FormulaComponent :=
  match load with
  | .error _ => none
  | .ok wb =>
    let target := py_lower (py_strip sheet_name)
    match wb.sheetnames.find? (fun s => py_lower (py_strip s) = target) with
    | none => none
    | some actual =>
      (analyze_cell_recursive (max_depth + 1) wb actual cell_address
        max_depth 0 [] []).1

/-! ## Specification predicates -/

/-- The classifier thresholds actually implemented by the code, phrased
over the reference count and supported-function count of a formula. -/
def classifier_spec (formula : String) : Prop :=
  ((analyze_formula_complexity formula).complexity = "complex" ↔
    (5 < (parse_formula formula).length ∨ 2 < num_functions_of formula)) ∧
  ((analyze_formula_complexity formula).complexity = "moderate" ↔
    ((parse_formula formula).length ≤ 5 ∧ num_functions_of formula ≤ 2 ∧
      (1 < (parse_formula formula).length ∨ 0 < num_functions_of formula))) ∧
  ((analyze_formula_complexity formula).complexity = "simple" ↔
    ((parse_formula formula).length ≤ 1 ∧ num_functions_of formula = 0))

/-- Leaf-marking invariant satisfied by every node the resolver returns:
a node without formula is marked as a leaf, and a node marked as a leaf
either has no formula or has a formula matched by the external-reference
detector. -/
inductive LeafOk : FormulaComponent → Prop where
  | mk (c : FormulaComponent)
      (hnone : c.formula = none → c.is_leaf_node = true)
      (hleaf : c.is_leaf_node = true →
        c.formula = none ∨ ∃ f, c.formula = some f ∧ has_external_references f = true)
      (hdeps : ∀ d ∈ c.dependencies, LeafOk d) : LeafOk c

/-- An analyzer function all of whose returned components satisfy the
leaf-marking invariant. -/
def RecLeafOk (recurse : RecFn) : Prop :=
  ∀ (wb : Workbook) (sheet addr : String) (maxd d : Nat)
    (visited visiting : List String) (comp : FormulaComponent) (v2 : List String),
    recurse wb sheet addr maxd d visited visiting = (some comp, v2) → LeafOk comp

/-! ## Concrete workbooks used as test fixtures for the claims -/

/-- A cell holding only a cached numeric value. -/
def const_cell (v : Int) : Cell :=
  { num_value := some v }

/-- A formula-bearing cell with an optional cached numeric value. -/
def formula_cell (f : String) (v : Option Int) : Cell :=
  { formula := some f, num_value := v }

/-- An empty cell. -/
def empty_cell : Cell := {}

/-- C1 fixture: `A1 = "=SUM(B1:E15)"`, a 60-cell range (15 rows of the 4
columns B..E, more than the claimed cap of 50), every other cell holding
the constant 1. -/
def wb_big_range : Workbook :=
  { sheetnames := ["Sheet"]
    cell := fun s a =>
      if s = "Sheet" ∧ a = "A1" then formula_cell "=SUM(B1:E15)" none
      else const_cell 1 }

/-- The leaf node the resolver produces for one constant cell of
`wb_big_range`. -/
def big_range_leaf (addr : String) : FormulaComponent :=
  { name := "Sheet!" ++ addr
    cell_reference := "Sheet!" ++ addr
    value := 1
    formula := none
    is_leaf_node := true
    dependencies := [] }

/-- C2 fixture: `A1 = "=SUM(B1:B10)"` with `B2`, `B5`, `B9` caching `0.0`
and every other `B` cell caching 3. -/
def wb_range_zeros : Workbook :=
  { sheetnames := ["Sheet"]
    cell := fun s a =>
      if s = "Sheet" ∧ a = "A1" then formula_cell "=SUM(B1:B10)" none
      else if s = "Sheet" ∧ (a = "B2" ∨ a = "B5" ∨ a = "B9") then const_cell 0
      else const_cell 3 }

/-- C2 fixture: a direct single-cell reference `A1 = "=B1"` to a
zero-valued cell. -/
def wb_direct_zero : Workbook :=
  { sheetnames := ["Sheet"]
    cell := fun s a =>
      if s = "Sheet" ∧ a = "A1" then formula_cell "=B1" none
      else const_cell 0 }

/-- C4 fixture: `A1 = "=B1"`, `B1 = "=C1"`; resolving `A1` with
`max_depth = 1` materialises `B1` as a depth-limit shallow node whose
cell contains a formula. -/
def wb_depth_formula : Workbook :=
  { sheetnames := ["Sheet"]
    cell := fun s a =>
      if s = "Sheet" ∧ a = "A1" then formula_cell "=B1" none
      else if s = "Sheet" ∧ a = "B1" then formula_cell "=C1" (some 2)
      else const_cell 0 }

/-- C5 fixture: `A1 = "=SUM(A1:A2)"` — the cell references itself through
a range — and `A2 = 7`. -/
def wb_self_range : Workbook :=
  { sheetnames := ["Sheet"]
    cell := fun s a =>
      if s = "Sheet" ∧ a = "A1" then formula_cell "=SUM(A1:A2)" none
      else if s = "Sheet" ∧ a = "A2" then const_cell 7
      else empty_cell }

/-- C6 fixture: the two-cell cycle `A1 = "=B1"`, `B1 = "=A1"`. -/
def wb_cycle : Workbook :=
  { sheetnames := ["Sheet"]
    cell := fun s a =>
      if s = "Sheet" ∧ a = "A1" then formula_cell "=B1" none
      else if s = "Sheet" ∧ a = "B1" then formula_cell "=A1" none
      else empty_cell }

/-- C7 fixture: the chain `A1 = "=B1"`, `B1 = "=C1"`, `C1 = "=D1"`,
`D1 = 5` with coherent cached values. -/
def wb_chain : Workbook :=
  { sheetnames := ["Sheet"]
    cell := fun s a =>
      if s = "Sheet" ∧ a = "A1" then formula_cell "=B1" (some 5)
      else if s = "Sheet" ∧ a = "B1" then formula_cell "=C1" (some 5)
      else if s = "Sheet" ∧ a = "C1" then formula_cell "=D1" (some 5)
      else if s = "Sheet" ∧ a = "D1" then const_cell 5
      else empty_cell }

/-- C8 fixture: `A1` holds a formula referencing an external workbook. -/
def wb_external : Workbook :=
  { sheetnames := ["Sheet"]
    cell := fun s a =>
      if s = "Sheet" ∧ a = "A1" then
        formula_cell "=[Other.xlsx]Sheet1!A1" (some 4)
      else empty_cell }


/-! ## Theorems -/

lemma to_col_chars_zero (fuel : Nat) : to_col_chars fuel 0 = [] := by
  cases fuel <;> rfl

lemma char_digit_codes (r : Nat) (h : r < 26) :
    (Char.ofNat (65 + r)).toUpper = Char.ofNat (65 + r) ∧
      (Char.ofNat (65 + r)).toNat = 65 + r := by
  interval_cases r <;> exact ⟨by decide, by decide⟩

lemma mem_upper_facts (c : Char) (hc : c ∈ uppercase_letters) :
    c.toUpper = c ∧ 65 ≤ c.toNat ∧ c.toNat ≤ 90 ∧ Char.ofNat c.toNat = c := by
  fin_cases hc <;> exact ⟨by decide, by decide, by decide, by decide⟩

lemma colval_to_col_chars (fuel n : Nat) (h : n ≤ fuel) :
    colval (to_col_chars fuel n) = n := by
  induction fuel generalizing n with
  | zero =>
    have : n = 0 := Nat.le_zero.mp h
    subst this; rfl
  | succ f ih =>
    cases n with
    | zero => rfl
    | succ m =>
      have hdig := char_digit_codes (m % 26) (Nat.mod_lt _ (by norm_num))
      have hrec : m / 26 ≤ f := by
        have h1 : m / 26 ≤ m := Nat.div_le_self m 26
        omega
      simp only [to_col_chars, colval, hdig.1, hdig.2, ih _ hrec]
      omega

lemma to_col_chars_colval (rs : List Char) (hne : rs ≠ [])
    (hc : ∀ c ∈ rs, c ∈ uppercase_letters) (fuel : Nat) (hf : colval rs ≤ fuel) :
    to_col_chars fuel (colval rs) = rs := by
  induction rs generalizing fuel with
  | nil => exact absurd rfl hne
  | cons c cs ih =>
    obtain ⟨hup, hlo, hhi, hback⟩ := mem_upper_facts c (hc c (List.mem_cons_self c cs))
    have hv : colval (c :: cs) = (c.toNat - 64) + 26 * colval cs := by
      simp [colval, hup]
    have hd1 : 1 ≤ c.toNat - 64 := by omega
    have hd2 : c.toNat - 64 ≤ 26 := by omega
    -- the loop peels off the last letter: quotient colval cs, remainder c.toNat - 65
    have hpos : 1 ≤ colval (c :: cs) := by omega
    obtain ⟨f, rfl⟩ : ∃ f, fuel = f + 1 := ⟨fuel - 1, by omega⟩
    obtain ⟨m, hm⟩ : ∃ m, colval (c :: cs) = m + 1 := ⟨colval (c :: cs) - 1, by omega⟩
    have hmval : m = (c.toNat - 65) + 26 * colval cs := by omega
    have hmod : m % 26 = c.toNat - 65 := by omega
    have hdiv : m / 26 = colval cs := by omega
    have hchar : Char.ofNat (65 + m % 26) = c := by
      rw [hmod]
      have h65 : 65 + (c.toNat - 65) = c.toNat := by omega
      rw [h65, hback]
    rw [hm]
    simp only [to_col_chars, hchar, hdiv]
    by_cases hcs : cs = []
    · subst hcs
      exact congrArg (c :: ·) (to_col_chars_zero f)
    · have hfw : colval cs ≤ f := by omega
      exact congrArg (c :: ·) (ih hcs (fun d hd => hc d (List.mem_cons_of_mem c hd)) f hfw)

/-- C10: the column-letter/number conversions are mutually inverse on
positive numbers and on non-empty uppercase A-Z strings. -/
theorem c10_column_letter_roundtrip (n : Nat) (hn : 1 ≤ n) (s : String)
    (h1 : s.data ≠ []) (h2 : ∀ c ∈ s.data, c ∈ uppercase_letters) :
    column_letter_to_number (number_to_column_letter n) = n ∧
      number_to_column_letter (column_letter_to_number s) = s := by
  constructor
  · show colval (to_col_chars n n).reverse.reverse = n
    rw [List.reverse_reverse]
    exact colval_to_col_chars n n (Nat.le_refl n)
  · obtain ⟨d⟩ := s
    show (⟨(to_col_chars (colval d.reverse) (colval d.reverse)).reverse⟩ : String) = ⟨d⟩
    have hrne : d.reverse ≠ [] := by
      simpa [List.reverse_eq_nil_iff] using h1
    have hrc : ∀ c ∈ d.reverse, c ∈ uppercase_letters := by
      intro c hcmem
      exact h2 c (List.mem_reverse.mp hcmem)
    rw [to_col_chars_colval d.reverse hrne hrc _ (Nat.le_refl _), List.reverse_reverse]

theorem c10_column_letter_roundtrip_witness :
    column_letter_to_number (number_to_column_letter 28) = 28 ∧
      number_to_column_letter (column_letter_to_number "AB") = "AB" :=
  c10_column_letter_roundtrip 28 (by decide) "AB" (by decide) (by decide)
/-! ### C6: cycle termination -/

/-- C6: for the workbook with `A1 = "=B1"` and `B1 = "=A1"`, resolving
`A1` at `max_depth = 5` terminates (the embedding is a total function and
the equation below evaluates it in full) and returns the tree in which
the cyclic branch under `B1` is omitted rather than infinitely nested. -/
theorem c6_cycle_termination :
    build_dependency_tree (Except.ok wb_cycle) "Sheet" "A1" 5 =
      some { name := "Sheet!A1", cell_reference := "Sheet!A1", value := 0,
             formula := some "=B1", is_leaf_node := false,
             dependencies := [
               { name := "Sheet!B1", cell_reference := "Sheet!B1", value := 0,
                 formula := some "=A1", is_leaf_node := false,
                 dependencies := [] } ] } := by
  rfl

/-! ### C9: I/O failure handling -/

/-- C9 counterexample: a failed workbook load is swallowed by the
`except Exception` handler of `build_dependency_tree` and surfaces as the
very same `none` that a missing sheet produces — no typed failure reaches
the caller, contradicting the claim that a single typed failure is
propagated distinctly from the null result. -/
theorem c9_io_failure_counterexample :
    build_dependency_tree (Except.error "unreadable workbook") "Sheet" "A1" 5 = none ∧
      build_dependency_tree (Except.ok wb_cycle) "NoSuchSheet" "A1" 5 = none :=
  ⟨rfl, rfl⟩

/-- C9 amended: when loading the workbook fails, `build_dependency_tree`
catches the exception and returns `None` — indistinguishable from the
missing-sheet null — for that one resolution call; nothing propagates. -/
theorem c9_io_failure_amended (e sheet addr : String) (maxd : Nat) :
    build_dependency_tree (Except.error e) sheet addr maxd = none :=
  rfl

/-! ### C5: the visiting set is dropped by range expansion -/

/-- C5: evaluating the resolver on `A1 = "=SUM(A1:A2)"` shows `Sheet!A1`
re-entered beneath its own node (twice), because
`_expand_range_reference` passes `visited_cells` but not `visiting` to
`_analyze_cell_recursive`, so the cycle guard never fires on the range
path.  The claim that a cell on the current path is never re-expanded —
and hence never appears as a strict descendant of itself — is violated. -/
theorem c5_visiting_dropped_in_range_eval :
    (build_dependency_tree (Except.ok wb_self_range) "Sheet" "A1" 3).map
        (fun c => (c.name, c.dependencies.map (fun d =>
          (d.name, d.dependencies.map FormulaComponent.name)))) =
      some ("Sheet!A1", [("Sheet!A1", ["Sheet!A1", "Sheet!A2"])]) := by
  rfl

/-! ### C4 counterexample: depth-limit nodes keep `is_leaf = no formula` -/

/-- C4 counterexample: resolving `wb_depth_formula` at `max_depth = 1`
materialises `B1` as a depth-limit shallow node; its cell contains the
formula `"=C1"` yet `is_leaf_node` is `false`, refuting the claim that a
node materialised at the depth limit whose cell contains a formula still
has `is_leaf = true`. -/
theorem c4_depth_limit_counterexample :
    ((build_dependency_tree (Except.ok wb_depth_formula) "Sheet" "A1" 1).map
        (fun c => c.dependencies.map (fun d => (d.formula, d.is_leaf_node)))) =
      some [(some "=C1", false)] ∧
    ¬ (∀ c, build_dependency_tree (Except.ok wb_depth_formula) "Sheet" "A1" 1 = some c →
        ∀ d ∈ c.dependencies, d.is_leaf_node = true) := by
  refine ⟨by rfl, fun hall => ?_⟩
  have h2 := hall
    { name := "Sheet!A1", cell_reference := "Sheet!A1", value := 0,
      formula := some "=B1", is_leaf_node := false,
      dependencies := [
        { name := "Sheet!B1", cell_reference := "Sheet!B1", value := 2,
          formula := some "=C1", is_leaf_node := false, dependencies := [] } ] }
    (by rfl)
  have h3 := h2 _ (List.mem_singleton.mpr rfl)
  simp at h3

/-! ### C2: no materiality pruning exists -/

/-- C2 counterexample: in the 10-cell range of `wb_range_zeros`, the cell
`B2` resolves to `0.0` — far below the claimed materiality threshold
`0.01` — yet its node is present in the expanded dependencies, refuting
the claim that such cells are pruned. -/
theorem c2_materiality_counterexample :
    ("Sheet!B2", (0 : Int)) ∈
      (((build_dependency_tree (Except.ok wb_range_zeros) "Sheet" "A1" 5).map
        (fun c => c.dependencies.map (fun d => (d.name, d.value)))).getD []) ∧
    ¬ (∀ c, build_dependency_tree (Except.ok wb_range_zeros) "Sheet" "A1" 5 = some c →
        "Sheet!B2" ∉ c.dependencies.map FormulaComponent.name) := by
  refine ⟨by decide, fun hall => ?_⟩
  cases hb : build_dependency_tree (Except.ok wb_range_zeros) "Sheet" "A1" 5 with
  | none =>
    have h0 : (build_dependency_tree (Except.ok wb_range_zeros) "Sheet" "A1" 5).isSome = true := by rfl
    rw [hb] at h0
    simp at h0
  | some c =>
    have hnames : c.dependencies.map FormulaComponent.name =
        ["Sheet!B1", "Sheet!B2", "Sheet!B3", "Sheet!B4", "Sheet!B5",
         "Sheet!B6", "Sheet!B7", "Sheet!B8", "Sheet!B9", "Sheet!B10"] := by
      have h0 : (build_dependency_tree (Except.ok wb_range_zeros) "Sheet" "A1" 5).map
          (fun x => x.dependencies.map FormulaComponent.name) =
          some ["Sheet!B1", "Sheet!B2", "Sheet!B3", "Sheet!B4", "Sheet!B5",
                "Sheet!B6", "Sheet!B7", "Sheet!B8", "Sheet!B9", "Sheet!B10"] := by rfl
      rw [hb] at h0
      simpa using h0
    have := hall c hb
    rw [hnames] at this
    simp at this

/-- C2 amended: no materiality pruning is applied anywhere: every cell of
a range yields a node regardless of its resolved value (the three
zero-valued cells of the 10-cell range are all present), and a direct
single-cell reference to a zero-valued cell is likewise included. -/
theorem c2_materiality_amended :
    ((build_dependency_tree (Except.ok wb_range_zeros) "Sheet" "A1" 5).map
      (fun c => c.dependencies.map (fun d => (d.name, d.value)))) =
      some [("Sheet!B1", 3), ("Sheet!B2", 0), ("Sheet!B3", 3), ("Sheet!B4", 3),
            ("Sheet!B5", 0), ("Sheet!B6", 3), ("Sheet!B7", 3), ("Sheet!B8", 3),
            ("Sheet!B9", 0), ("Sheet!B10", 3)] ∧
    ((build_dependency_tree (Except.ok wb_direct_zero) "Sheet" "A1" 5).map
      (fun c => c.dependencies.map (fun d => (d.name, d.value, d.is_leaf_node)))) =
      some [("Sheet!B1", 0, true)] :=
  ⟨by rfl, by rfl⟩

/-! ### C1: no range cap exists -/

/-- The root node actually produced for `wb_big_range`: all 60 contained
cells of `B1:E15` appear as leaves in row-major order. -/
def big_range_root : FormulaComponent :=
  { name := "Sheet!A1", cell_reference := "Sheet!A1", value := 0,
    formula := some "=SUM(B1:E15)", is_leaf_node := false,
    dependencies := (List.range' 1 15).flatMap (fun r =>
      ["B", "C", "D", "E"].map (fun cl => big_range_leaf (cl ++ toString r))) }

lemma big_range_eval :
    build_dependency_tree (Except.ok wb_big_range) "Sheet" "A1" 5 =
      some big_range_root := by
  rfl

/-- C1 counterexample: the 60-cell range `B1:E15` expands into 60
dependency nodes — resolution does not fail, but nothing caps the
expansion at 50, refuting the claimed bound of at most 50 expanded
nodes (the source contains no cap for any range size). -/
theorem c1_range_cap_counterexample :
    ((build_dependency_tree (Except.ok wb_big_range) "Sheet" "A1" 5).map
      (fun c => c.dependencies.length)) = some 60 ∧
    ¬ (∀ c, build_dependency_tree (Except.ok wb_big_range) "Sheet" "A1" 5 = some c →
        c.dependencies.length ≤ 50) := by
  have hlen : big_range_root.dependencies.length = 60 := by rfl
  constructor
  · rw [big_range_eval]
    exact congrArg some hlen
  · intro hall
    have hle := hall big_range_root big_range_eval
    omega

/-- C1 amended: range expansion makes one resolver call per contained
cell in row-major order (rows outermost, columns innermost) with no cap:
the 60-cell range `B1:E15` yields exactly the 60 leaf nodes
`B1, C1, D1, E1, B2, …, E15`, and resolution succeeds. -/
theorem c1_range_cap_amended :
    build_dependency_tree (Except.ok wb_big_range) "Sheet" "A1" 5 =
      some big_range_root ∧
    big_range_root.dependencies.length = 60 :=
  ⟨big_range_eval, by rfl⟩

/-! ### C3: classifier thresholds -/

/-- C3 counterexample: `"=A1+B1+C1+D1+E1+F1"` has 6 references and no
supported function, yet classifies as `complex` — the code's threshold is
`num_refs > 5`, not the claimed `reference_count > 10`. -/
theorem c3_classifier_thresholds_counterexample :
    ¬ (((analyze_formula_complexity "=A1+B1+C1+D1+E1+F1").complexity = "complex") ↔
       10 < (parse_formula "=A1+B1+C1+D1+E1+F1").length) := by
  decide

/-- C3 amended: the classifier returns `complex` exactly when the
reference count exceeds 5 or the supported-function count exceeds 2,
`moderate` exactly when it is not complex and the reference count exceeds
1 or any supported function occurs, and `simple` otherwise; there is no
special `SUMIF`/`SUMIFS`/`VLOOKUP` allow-list.  The claim's three
concrete instances still hold: 11 references classify as `complex`, 4
references with no function as `moderate`, 1 reference with no function
as `simple`. -/
theorem c3_classifier_thresholds_amended :
    (∀ s, starts_with_eq s = true → classifier_spec s) ∧
    (analyze_formula_complexity "=A1+B1+C1+D1+E1+F1+G1+H1+I1+J1+K1").complexity = "complex" ∧
    (analyze_formula_complexity "=A1+B1+C1+D1").complexity = "moderate" ∧
    (analyze_formula_complexity "=A1").complexity = "simple" := by
  refine ⟨?_, by rfl, by rfl, by rfl⟩
  intro s hs
  have hne : ¬ (s = "" ∨ starts_with_eq s = false) := by
    rintro (he | he)
    · subst he; simp [starts_with_eq] at hs
    · rw [hs] at he; cases he
  have hform : analyze_formula_complexity s =
      { complexity :=
          if 5 < (parse_formula s).length ∨ 2 < num_functions_of s then "complex"
          else if 1 < (parse_formula s).length ∨ 0 < num_functions_of s then "moderate"
          else "simple"
        can_drill_down := !has_external_references s && decide (0 < (parse_formula s).length)
        has_external_refs := has_external_references s } := by
    unfold analyze_formula_complexity
    rw [if_neg hne]
  unfold classifier_spec
  rw [hform]
  dsimp only
  split_ifs with h1 h2
  · refine ⟨⟨fun _ => h1, fun _ => rfl⟩, ?_, ?_⟩
    · constructor
      · intro hc; exact absurd hc (by decide)
      · intro hcond; omega
    · constructor
      · intro hc; exact absurd hc (by decide)
      · intro hcond; omega
  · refine ⟨?_, ⟨fun _ => ⟨by omega, by omega, h2⟩, fun _ => rfl⟩, ?_⟩
    · constructor
      · intro hc; exact absurd hc (by decide)
      · intro hcond; omega
    · constructor
      · intro hc; exact absurd hc (by decide)
      · intro hcond; omega
  · refine ⟨?_, ?_, ⟨fun _ => ⟨by omega, by omega⟩, fun _ => rfl⟩⟩
    · constructor
      · intro hc; exact absurd hc (by decide)
      · intro hcond; omega
    · constructor
      · intro hc; exact absurd hc (by decide)
      · intro hcond; omega

/-- C3 witness: the amended characterisation instantiated at `"=A1"`. -/
theorem c3_classifier_thresholds_witness : classifier_spec "=A1" :=
  c3_classifier_thresholds_amended.1 "=A1" (by decide)

/-! ### C7 and C8: depth rule and external-reference rule -/

lemma ref_step_fold_shallow (recurse : RecFn) (wb : Workbook) (sheet : String)
    (maxd d : Nat) (vnext : List String) (hd : maxd ≤ d + 1) :
    ∀ (refs : List CellReference) (acc : List FormulaComponent × List String),
      (∀ r ∈ refs, r.is_range = false) →
      refs.foldl (ref_step recurse wb sheet maxd d vnext) acc =
        (acc.1 ++ refs.filterMap (fun r =>
          shallow_component wb (r.sheet_name.getD sheet) (r.column ++ toString r.row)), acc.2) := by
  intro refs
  induction refs with
  | nil => intro acc _; simp
  | cons r rs ih =>
    intro acc hall
    have hr : r.is_range = false := hall r (List.mem_cons_self r rs)
    have hstep : ref_step recurse wb sheet maxd d vnext acc r =
        match shallow_component wb (r.sheet_name.getD sheet) (r.column ++ toString r.row) with
        | some comp => (acc.1 ++ [comp], acc.2)
        | none => acc := by
      unfold ref_step
      rw [hr]
      simp only [Bool.false_eq_true, if_false, if_pos hd]
    rw [List.foldl_cons, hstep]
    cases hsc : shallow_component wb (r.sheet_name.getD sheet) (r.column ++ toString r.row) with
    | some comp =>
      rw [ih _ (fun x hx => hall x (List.mem_cons_of_mem r hx))]
      simp [List.filterMap_cons, hsc]
    | none =>
      rw [ih _ (fun x hx => hall x (List.mem_cons_of_mem r hx))]
      simp [List.filterMap_cons, hsc]

lemma analyze_core_formula_step (recurse : RecFn) (wb : Workbook)
    (sheet addr : String) (maxd d : Nat) (visited visiting : List String)
    (col : String) (row : Nat) (f : String)
    (h1 : cell_id_of sheet addr ∉ visiting)
    (h2 : cell_id_of sheet addr ∉ visited)
    (h3 : d < maxd)
    (h4 : sheet ∈ wb.sheetnames)
    (h5 : parse_simple_cell (norm_address addr) = some (col, row))
    (h6 : (wb.cell sheet (col ++ toString row)).formula = some f)
    (h7 : f ≠ "")
    (h8 : has_external_references f = false) :
    analyze_core recurse wb sheet addr maxd d visited visiting =
      (some { name := sheet ++ "!" ++ norm_address addr
              cell_reference := sheet ++ "!" ++ norm_address addr
              value := (wb.cell sheet (col ++ toString row)).num_value.getD 0
              formula := some f
              is_leaf_node := false
              dependencies := ((parse_formula f).foldl
                (ref_step recurse wb sheet maxd d (cell_id_of sheet addr :: visiting))
                ([], visited)).1 },
        add_visited ((parse_formula f).foldl
          (ref_step recurse wb sheet maxd d (cell_id_of sheet addr :: visiting))
          ([], visited)).2 (cell_id_of sheet addr)) := by
  simp only [analyze_core]
  rw [if_neg h1, if_neg h2, if_neg (by omega : ¬ maxd ≤ d), if_neg (not_not_intro h4), h5]
  simp only [h6, Option.isNone_some]
  rw [if_neg h7, h8]
  simp only [Bool.false_eq_true, if_false]

lemma analyze_core_external (recurse : RecFn) (wb : Workbook)
    (sheet addr : String) (maxd d : Nat) (visited visiting : List String)
    (col : String) (row : Nat) (f : String)
    (h1 : cell_id_of sheet addr ∉ visiting)
    (h2 : cell_id_of sheet addr ∉ visited)
    (h3 : d < maxd)
    (h4 : sheet ∈ wb.sheetnames)
    (h5 : parse_simple_cell (norm_address addr) = some (col, row))
    (h6 : (wb.cell sheet (col ++ toString row)).formula = some f)
    (h7 : f ≠ "")
    (h8 : has_external_references f = true) :
    analyze_core recurse wb sheet addr maxd d visited visiting =
      (some { name := sheet ++ "!" ++ norm_address addr
              cell_reference := sheet ++ "!" ++ norm_address addr
              value := (wb.cell sheet (col ++ toString row)).num_value.getD 0
              formula := some f
              is_leaf_node := true
              dependencies := [] },
        add_visited visited (cell_id_of sheet addr)) := by
  simp only [analyze_core]
  rw [if_neg h1, if_neg h2, if_neg (by omega : ¬ maxd ≤ d), if_neg (not_not_intro h4), h5]
  simp only [h6, Option.isNone_some]
  rw [if_neg h7, h8]
  simp only [if_true]

/-- C7: once the next recursion level would reach `max_depth`
(`current_depth + 1 >= max_depth`), the resolver stops recursing but
still materialises one shallow node per remaining direct (non-range)
reference via `shallow_component` — carrying the referenced cell's value
and raw formula text — without expanding further; and for the chain
`A1 = "=B1"`, `B1 = "=C1"`, `C1 = "=D1"`, `D1 = 5`, resolving `A1` at
`max_depth = 2` returns a tree of depth exactly 2 whose depth-2 node for
`C1` is present (with its formula `"=D1"`) but not expanded into `D1`. -/
theorem c7_depth_rule :
    (∀ (fuel : Nat) (wb : Workbook) (sheet addr : String) (maxd d : Nat)
        (visited visiting : List String) (col : String) (row : Nat) (f : String),
      cell_id_of sheet addr ∉ visiting →
      cell_id_of sheet addr ∉ visited →
      d < maxd →
      maxd ≤ d + 1 →
      sheet ∈ wb.sheetnames →
      parse_simple_cell (norm_address addr) = some (col, row) →
      (wb.cell sheet (col ++ toString row)).formula = some f →
      f ≠ "" →
      has_external_references f = false →
      (∀ r ∈ parse_formula f, r.is_range = false) →
      ((analyze_cell_recursive (fuel + 1) wb sheet addr maxd d visited visiting).1).map
          FormulaComponent.dependencies =
        some ((parse_formula f).filterMap (fun r =>
          shallow_component wb (r.sheet_name.getD sheet) (r.column ++ toString r.row)))) ∧
    build_dependency_tree (Except.ok wb_chain) "Sheet" "A1" 2 =
      some { name := "Sheet!A1", cell_reference := "Sheet!A1", value := 5,
             formula := some "=B1", is_leaf_node := false,
             dependencies := [
               { name := "Sheet!B1", cell_reference := "Sheet!B1", value := 5,
                 formula := some "=C1", is_leaf_node := false,
                 dependencies := [
                   { name := "Sheet!C1", cell_reference := "Sheet!C1", value := 5,
                     formula := some "=D1", is_leaf_node := false,
                     dependencies := [] } ] } ] } := by
  constructor
  · intro fuel wb sheet addr maxd d visited visiting col row f
      h1 h2 h3 hdl h4 h5 h6 h7 h8 h9
    have hcore : analyze_cell_recursive (fuel + 1) wb sheet addr maxd d visited visiting =
        analyze_core (analyze_cell_recursive fuel) wb sheet addr maxd d visited visiting := rfl
    rw [hcore,
      analyze_core_formula_step (analyze_cell_recursive fuel) wb sheet addr maxd d
        visited visiting col row f h1 h2 h3 h4 h5 h6 h7 h8,
      ref_step_fold_shallow (analyze_cell_recursive fuel) wb sheet maxd d
        (cell_id_of sheet addr :: visiting) hdl (parse_formula f) ([], visited) h9]
    simp
  · rfl

/-- C7 witness: the universal depth rule applied at the `B1` node of the
chain workbook (`current_depth = 1`, `max_depth = 2`). -/
theorem c7_depth_rule_witness :
    ((analyze_cell_recursive (1 + 1) wb_chain "Sheet" "B1" 2 1 [] ["Sheet!A1"]).1).map
        FormulaComponent.dependencies =
      some ((parse_formula "=C1").filterMap (fun r =>
        shallow_component wb_chain (r.sheet_name.getD "Sheet") (r.column ++ toString r.row))) :=
  c7_depth_rule.1 1 wb_chain "Sheet" "B1" 2 1 [] ["Sheet!A1"] "B" 1 "=C1"
    (by decide) (by decide) (by decide) (by decide) (by decide)
    (by rfl) (by rfl) (by decide) (by rfl) (by decide)

/-- C8: whenever the resolver produces a node for a cell whose non-empty
formula matches the external-reference detector, that node has
`is_leaf = true` and empty dependencies, and none of the formula's
references is parsed or recursed into — for every remaining depth budget
(`current_depth < max_depth` arbitrary). -/
theorem c8_external_reference_leaf
    (fuel : Nat) (wb : Workbook) (sheet addr : String) (maxd d : Nat)
    (visited visiting : List String) (col : String) (row : Nat) (f : String)
    (h1 : cell_id_of sheet addr ∉ visiting)
    (h2 : cell_id_of sheet addr ∉ visited)
    (h3 : d < maxd)
    (h4 : sheet ∈ wb.sheetnames)
    (h5 : parse_simple_cell (norm_address addr) = some (col, row))
    (h6 : (wb.cell sheet (col ++ toString row)).formula = some f)
    (h7 : f ≠ "")
    (h8 : has_external_references f = true) :
    ((analyze_cell_recursive (fuel + 1) wb sheet addr maxd d visited visiting).1).map
        (fun c => (c.is_leaf_node, c.dependencies)) = some (true, []) := by
  have hcore : analyze_cell_recursive (fuel + 1) wb sheet addr maxd d visited visiting =
      analyze_core (analyze_cell_recursive fuel) wb sheet addr maxd d visited visiting := rfl
  rw [hcore,
    analyze_core_external (analyze_cell_recursive fuel) wb sheet addr maxd d
      visited visiting col row f h1 h2 h3 h4 h5 h6 h7 h8]
  rfl

/-- C8 witness: the external-reference rule applied to `wb_external`
(formula `"=[Other.xlsx]Sheet1!A1"`) at depth 0 of a resolution with
`max_depth = 5`. -/
theorem c8_external_reference_leaf_witness :
    ((analyze_cell_recursive (5 + 1) wb_external "Sheet" "A1" 5 0 [] []).1).map
        (fun c => (c.is_leaf_node, c.dependencies)) = some (true, []) :=
  c8_external_reference_leaf 5 wb_external "Sheet" "A1" 5 0 [] [] "A" 1
    "=[Other.xlsx]Sheet1!A1"
    (by decide) (by decide) (by decide) (by decide)
    (by rfl) (by rfl) (by decide) (by rfl)

/-! ### C4: leaf-marking invariant -/

lemma shallow_component_leaf_ok {wb : Workbook} {ts ta : String}
    {comp : FormulaComponent} (h : shallow_component wb ts ta = some comp) :
    LeafOk comp := by
  unfold shallow_component at h
  by_cases hs : ts ∈ wb.sheetnames
  · rw [if_pos hs] at h
    cases hp : parse_simple_cell ta with
    | none => rw [hp] at h; cases h
    | some pr =>
      obtain ⟨col, row⟩ := pr
      rw [hp] at h
      dsimp only at h
      injection h with h2
      subst h2
      refine LeafOk.mk _ ?_ ?_ ?_
      · intro hf
        dsimp only at hf
        simp [hf]
      · intro hl
        left
        simpa using hl
      · intro x hx; simp at hx
  · rw [if_neg hs] at h; cases h

lemma foldl_preserve_leaf_ok {α : Type}
    (step : (List FormulaComponent × List String) → α → (List FormulaComponent × List String))
    (hstep : ∀ acc a, (∀ x ∈ acc.1, LeafOk x) → ∀ x ∈ (step acc a).1, LeafOk x) :
    ∀ (l : List α) (acc : List FormulaComponent × List String),
      (∀ x ∈ acc.1, LeafOk x) → ∀ x ∈ (l.foldl step acc).1, LeafOk x := by
  intro l
  induction l with
  | nil => intro acc h; simpa using h
  | cons a as ih => intro acc h; exact ih _ (hstep acc a h)

lemma range_cell_process_leaf_ok {recurse : RecFn} (hrec : RecLeafOk recurse)
    (wb : Workbook) (ts ta : String) (maxd d : Nat) :
    ∀ (acc : List FormulaComponent × List String), (∀ x ∈ acc.1, LeafOk x) →
      ∀ x ∈ (range_cell_process recurse wb ts ta maxd d acc).1, LeafOk x := by
  intro acc hacc x hx
  unfold range_cell_process at hx
  by_cases hd : maxd ≤ d
  · rw [if_pos hd] at hx
    cases hsc : shallow_component wb ts ta with
    | none => rw [hsc] at hx; exact hacc x hx
    | some comp =>
      rw [hsc] at hx
      dsimp only at hx
      rcases List.mem_append.mp hx with hx1 | hx2
      · exact hacc x hx1
      · rw [List.mem_singleton] at hx2; subst hx2
        exact shallow_component_leaf_ok hsc
  · rw [if_neg hd] at hx
    cases hr : recurse wb ts ta maxd d acc.2 [] with
    | mk o v2 =>
      cases o with
      | none => rw [hr] at hx; dsimp only at hx; exact hacc x hx
      | some comp =>
        rw [hr] at hx
        dsimp only at hx
        rcases List.mem_append.mp hx with hx1 | hx2
        · exact hacc x hx1
        · rw [List.mem_singleton] at hx2; subst hx2
          exact hrec wb ts ta maxd d acc.2 [] _ _ hr

lemma expand_range_leaf_ok {recurse : RecFn} (hrec : RecLeafOk recurse)
    (wb : Workbook) (ref : CellReference) (maxd d : Nat)
    (vis : List String) (cs : String) :
    ∀ x ∈ (expand_range_reference_with recurse wb ref maxd d vis cs).1, LeafOk x := by
  intro x hx
  unfold expand_range_reference_with at hx
  cases hco : ref.range_end_column with
  | none => rw [hco] at hx; simp at hx
  | some recol =>
    cases hro : ref.range_end_row with
    | none => rw [hco, hro] at hx; simp at hx
    | some end_row =>
      rw [hco, hro] at hx
      dsimp only at hx
      by_cases hg : ref.is_range = false ∨ recol = ""
      · rw [if_pos hg] at hx; simp at hx
      · rw [if_neg hg] at hx
        refine foldl_preserve_leaf_ok _ ?_ _ ([], vis) (by simp) x hx
        intro acc r hacc
        refine foldl_preserve_leaf_ok _ ?_ _ acc hacc
        intro acc2 cnum hacc2
        exact range_cell_process_leaf_ok hrec wb _ _ maxd d acc2 hacc2

lemma ref_step_leaf_ok {recurse : RecFn} (hrec : RecLeafOk recurse)
    (wb : Workbook) (sheet : String) (maxd d : Nat) (vnext : List String) :
    ∀ (acc : List FormulaComponent × List String) (r : CellReference),
      (∀ x ∈ acc.1, LeafOk x) →
      ∀ x ∈ (ref_step recurse wb sheet maxd d vnext acc r).1, LeafOk x := by
  intro acc r hacc x hx
  unfold ref_step at hx
  by_cases hr : r.is_range = true
  · rw [if_pos hr] at hx
    dsimp only at hx
    rcases List.mem_append.mp hx with hx1 | hx2
    · exact hacc x hx1
    · exact expand_range_leaf_ok hrec wb r maxd (d + 1) acc.2 sheet x hx2
  · rw [if_neg hr] at hx
    by_cases hd : maxd ≤ d + 1
    · rw [if_pos hd] at hx
      cases hsc : shallow_component wb (r.sheet_name.getD sheet) (r.column ++ toString r.row) with
      | none => rw [hsc] at hx; exact hacc x hx
      | some comp =>
        rw [hsc] at hx
        dsimp only at hx
        rcases List.mem_append.mp hx with hx1 | hx2
        · exact hacc x hx1
        · rw [List.mem_singleton] at hx2; subst hx2
          exact shallow_component_leaf_ok hsc
    · rw [if_neg hd] at hx
      cases hrc : recurse wb (r.sheet_name.getD sheet) (r.column ++ toString r.row)
          maxd (d + 1) acc.2 vnext with
      | mk o v2 =>
        cases o with
        | none => rw [hrc] at hx; dsimp only at hx; exact hacc x hx
        | some comp =>
          rw [hrc] at hx
          dsimp only at hx
          rcases List.mem_append.mp hx with hx1 | hx2
          · exact hacc x hx1
          · rw [List.mem_singleton] at hx2; subst hx2
            exact hrec wb _ _ maxd (d + 1) acc.2 vnext _ _ hrc

lemma analyze_core_leaf_ok {recurse : RecFn} (hrec : RecLeafOk recurse) :
    RecLeafOk (analyze_core recurse) := by
  intro wb sheet addr maxd d visited visiting comp v2 h
  simp only [analyze_core] at h
  by_cases h1 : cell_id_of sheet addr ∈ visiting
  · rw [if_pos h1] at h; simp at h
  rw [if_neg h1] at h
  by_cases h2 : cell_id_of sheet addr ∈ visited
  · rw [if_pos h2] at h; simp at h
  rw [if_neg h2] at h
  by_cases h3 : maxd ≤ d
  · rw [if_pos h3] at h; simp at h
  rw [if_neg h3] at h
  by_cases h4 : sheet ∉ wb.sheetnames
  · rw [if_pos h4] at h; simp at h
  rw [if_neg h4] at h
  cases h5 : parse_simple_cell (norm_address addr) with
  | none => rw [h5] at h; simp at h
  | some pr =>
    obtain ⟨col, row⟩ := pr
    rw [h5] at h
    dsimp only at h
    cases h6 : (wb.cell sheet (col ++ toString row)).formula with
    | none =>
      rw [h6] at h
      dsimp only at h
      simp only [Prod.mk.injEq, Option.some.injEq] at h
      obtain ⟨hcomp, _⟩ := h
      subst hcomp
      exact LeafOk.mk _ (fun _ => rfl) (fun _ => Or.inl rfl) (fun x hx => by simp at hx)
    | some f =>
      rw [h6] at h
      dsimp only at h
      by_cases h7 : f = ""
      · rw [if_pos h7] at h
        simp only [Prod.mk.injEq, Option.some.injEq] at h
        obtain ⟨hcomp, _⟩ := h
        subst hcomp
        exact LeafOk.mk _ (fun hf => by simp at hf) (fun hl => by simp at hl)
          (fun x hx => by simp at hx)
      rw [if_neg h7] at h
      by_cases h8 : has_external_references f = true
      · rw [if_pos h8] at h
        simp only [Prod.mk.injEq, Option.some.injEq] at h
        obtain ⟨hcomp, _⟩ := h
        subst hcomp
        exact LeafOk.mk _ (fun hf => by simp at hf) (fun _ => Or.inr ⟨f, rfl, h8⟩)
          (fun x hx => by simp at hx)
      · rw [if_neg h8] at h
        simp only [Prod.mk.injEq, Option.some.injEq] at h
        obtain ⟨hcomp, _⟩ := h
        subst hcomp
        refine LeafOk.mk _ (fun hf => by simp at hf) (fun hl => by simp at hl) ?_
        intro x hx
        dsimp only at hx
        exact foldl_preserve_leaf_ok _
          (ref_step_leaf_ok hrec wb sheet maxd d (cell_id_of sheet addr :: visiting))
          (parse_formula f) ([], visited) (by simp) x hx

lemma analyze_cell_recursive_leaf_ok (fuel : Nat) :
    RecLeafOk (analyze_cell_recursive fuel) := by
  induction fuel with
  | zero =>
    intro wb sheet addr maxd d visited visiting comp v2 h
    simp [analyze_cell_recursive] at h
  | succ f ih =>
    have hstep : analyze_cell_recursive (f + 1) = analyze_core (analyze_cell_recursive f) := rfl
    rw [hstep]
    exact analyze_core_leaf_ok ih

/-- C4 amended: in every tree the resolver returns, a node with no
formula has `is_leaf = true`, and a node with `is_leaf = true` holds no
formula or a formula matched by the external-reference detector.  A node
materialised at the depth limit whose cell contains a (non-external)
formula therefore has `is_leaf = false`, and cycle/visited/depth
terminations produce no node at all. -/
theorem c4_leaf_invariant_amended :
    (∀ (fuel : Nat) (wb : Workbook) (sheet addr : String) (maxd d : Nat)
        (visited visiting : List String) (comp : FormulaComponent) (v2 : List String),
      analyze_cell_recursive fuel wb sheet addr maxd d visited visiting = (some comp, v2) →
      LeafOk comp) ∧
    (∀ (load : Except String Workbook) (sheet addr : String) (maxd : Nat)
        (comp : FormulaComponent),
      build_dependency_tree load sheet addr maxd = some comp → LeafOk comp) := by
  constructor
  · intro fuel wb sheet addr maxd d visited visiting comp v2 h
    exact analyze_cell_recursive_leaf_ok fuel wb sheet addr maxd d visited visiting comp v2 h
  · intro load sheet addr maxd comp h
    unfold build_dependency_tree at h
    cases load with
    | error e => simp at h
    | ok wb =>
      dsimp only at h
      cases hf : wb.sheetnames.find?
          (fun s => py_lower (py_strip s) = py_lower (py_strip sheet)) with
      | none => rw [hf] at h; simp at h
      | some actual =>
        rw [hf] at h
        dsimp only at h
        cases hp : analyze_cell_recursive (maxd + 1) wb actual addr maxd 0 [] [] with
        | mk o vv =>
          rw [hp] at h
          dsimp only at h
          subst h
          exact analyze_cell_recursive_leaf_ok (maxd + 1) wb actual addr maxd 0 [] [] comp vv hp

/-- C4 witness: the invariant instantiated on the tree resolved from the
cycle workbook. -/
theorem c4_leaf_invariant_witness :
    LeafOk { name := "Sheet!A1", cell_reference := "Sheet!A1", value := 0,
             formula := some "=B1", is_leaf_node := false,
             dependencies := [
               { name := "Sheet!B1", cell_reference := "Sheet!B1", value := 0,
                 formula := some "=A1", is_leaf_node := false,
                 dependencies := [] } ] } :=
  c4_leaf_invariant_amended.2 (Except.ok wb_cycle) "Sheet" "A1" 5 _ (by rfl)
